import Mathlib

/-!
Verification development for the `inkex-bh` Barn Hunt Inkscape extensions,
centred on the rat-placement engine (`bh-hide-rats.py`).

Geometry is modelled over `ℚ` (the Python code computes with floats; all the
properties verified here are exact-arithmetic properties of the formulas).
`random.uniform a b` is modelled as `a + (b - a) * r` with a caller-supplied
unit sample `r ∈ [0, 1]`, which is exactly the formula CPython uses.
-/

set_option autoImplicit false

namespace InkexBh

/-- Axis-aligned bounding box, from `BoundingBox` in `bh-hide-rats.py`
(fields `xmin, xmax, ymin, ymax`; the inkex flavour names them
`left / right / top / bottom`). -/
structure BBox where
  xmin : ℚ
  xmax : ℚ
  ymin : ℚ
  ymax : ℚ
deriving DecidableEq, Repr

/-- `BoundingBox.width`. -/
def BBox.width (b : BBox) : ℚ := b.xmax - b.xmin

/-- `BoundingBox.height`. -/
def BBox.height (b : BBox) : ℚ := b.ymax - b.ymin

/-- `BoundingBox.overlaps` from `bh-hide-rats.py`:
closed-interval intersection test. -/
def BBox.overlaps (a b : BBox) : Bool :=
  decide (a.xmin ≤ b.xmax) && decide (a.ymin ≤ b.ymax) &&
  decide (b.xmin ≤ a.xmax) && decide (b.ymin ≤ a.ymax)

/-- 2×3 affine transform, the `simpletransform` matrix
`[[a11, a12, a13], [a21, a22, a23]]` used by `Transform` in
`bh-hide-rats.py`. -/
structure Transform where
  a11 : ℚ
  a12 : ℚ
  a13 : ℚ
  a21 : ℚ
  a22 : ℚ
  a23 : ℚ
deriving DecidableEq, Repr

namespace Transform

/-- The identity transform (`Transform(None)`). -/
def ident : Transform := ⟨1, 0, 0, 0, 1, 0⟩

/-- `simpletransform.composeTransform(m, n)`: the matrix product `m · n`,
i.e. apply `n` first, then `m`. -/
def compose (m n : Transform) : Transform :=
  ⟨m.a11 * n.a11 + m.a12 * n.a21,
   m.a11 * n.a12 + m.a12 * n.a22,
   m.a11 * n.a13 + m.a12 * n.a23 + m.a13,
   m.a21 * n.a11 + m.a22 * n.a21,
   m.a21 * n.a12 + m.a22 * n.a22,
   m.a21 * n.a13 + m.a22 * n.a23 + m.a23⟩

/-- Apply the affine transform to a point (`Transform.__mul__` with a
`Point`). -/
def applyPt (m : Transform) (p : ℚ × ℚ) : ℚ × ℚ :=
  (m.a11 * p.1 + m.a12 * p.2 + m.a13,
   m.a21 * p.1 + m.a22 * p.2 + m.a23)

/-- Apply only the linear part to a displacement (`Transform.__mul__` with an
`Offset`: the translation column is ignored). -/
def applyOffset (m : Transform) (v : ℚ × ℚ) : ℚ × ℚ :=
  (m.a11 * v.1 + m.a12 * v.2,
   m.a21 * v.1 + m.a22 * v.2)

/-- Determinant of the linear part. -/
def det (m : Transform) : ℚ := m.a11 * m.a22 - m.a12 * m.a21

/-- `simpletransform.invertTransform`: inverse of the linear part together
with the mapped-back translation column.  (In Lean, division by a zero
determinant yields junk values; every theorem using `inverse` assumes
`det ≠ 0`.) -/
def inverse (m : Transform) : Transform :=
  let b11 := m.a22 / m.det
  let b12 := -m.a12 / m.det
  let b21 := -m.a21 / m.det
  let b22 := m.a11 / m.det
  ⟨b11, b12, -(b11 * m.a13) - b12 * m.a23,
   b21, b22, -(b21 * m.a13) - b22 * m.a23⟩

/-- `Transform.offset(offset)`: a pure translation. -/
def offset (v : ℚ × ℚ) : Transform := ⟨1, 0, v.1, 0, 1, v.2⟩

end Transform

/-- `composed_transform(elem)` from `bh-hide-rats.py`:
`reduce(lambda t, el: el.transform * t, lineage(elem), Transform(None))`.
The list holds the local transforms of the lineage, element first, root
last; the result composes them root-outermost. -/
def composed_transform (lineage : List Transform) : Transform :=
  lineage.foldl (fun t l => Transform.compose l t) Transform.ident

/-! ## RatPlacer.random_position

From `RatPlacer.random_position` (both `src/bh-hide-rats.py:396` and
`src/barnhunt/bh-hide-rats.py:191`, which compute the same candidates):

```
xmin, xmax, ymin, ymax = self.boundary
xmax = max(xmax - rat_bbox.width, xmin)
ymax = max(ymax - rat_bbox.height, ymin)
for n in count(1):
    x = random.uniform(xmin, xmax)
    y = random.uniform(ymin, ymax)
    new_bbox = BoundingBox(x, x + rat_bbox.width, y, y + rat_bbox.height)
    if not self.intersects_excluded(new_bbox):
        break
    elif n >= max_tries:
        inkex.errormsg("Can not find ... after %d tries. Giving up." % n)
        break
return x, y
```

The PRNG is modelled by a stream `r : ℕ → ℚ × ℚ` of unit samples (one pair
per try, indexed from 1 as in the source); `random.uniform a b` is
`a + (b - a) * r`.  Emitted warnings are returned as the list of try-counts
named in the message text.
-/

/-- `random.uniform a b` for a unit sample `r`. -/
def uniform (a b r : ℚ) : ℚ := a + (b - a) * r

/-- `RatPlacer.intersects_excluded`. -/
def intersects_excluded (exclusions : List BBox) (bbox : BBox) : Bool :=
  exclusions.any (fun excl => bbox.overlaps excl)

/-- The candidate box formed at origin `(x, y)`:
`BoundingBox(x, x + width, y, y + height)`. -/
def candidateBox (x y w h : ℚ) : BBox := ⟨x, x + w, y, y + h⟩

/-- The retry loop of `random_position`.  `n` is the 1-based try counter;
`fuel` is `maxTries + 1 - n` at every reachable call, so the `fuel = 0`
branch (written to mirror the exhaustion branch) is never reached from
`random_position`. -/
def randomPositionAux (x0 x1 y0 y1 w h : ℚ) (excl : List BBox)
    (r : ℕ → ℚ × ℚ) (maxTries : ℕ) : ℕ → ℕ → (ℚ × ℚ) × List ℕ
  | n, 0 => ((uniform x0 x1 (r n).1, uniform y0 y1 (r n).2), [n])
  | n, fuel + 1 =>
    let x := uniform x0 x1 (r n).1
    let y := uniform y0 y1 (r n).2
    if intersects_excluded excl (candidateBox x y w h) = false then
      ((x, y), [])
    else if maxTries ≤ n then
      ((x, y), [n])
    else
      randomPositionAux x0 x1 y0 y1 w h excl r maxTries (n + 1) fuel

/-- `RatPlacer.random_position boundary rat_bbox exclusions r maxTries`:
returns the chosen origin together with the warnings emitted (each warning
names its try count). -/
def random_position (boundary rat_bbox : BBox) (excl : List BBox)
    (r : ℕ → ℚ × ℚ) (maxTries : ℕ) : (ℚ × ℚ) × List ℕ :=
  randomPositionAux boundary.xmin (max (boundary.xmax - rat_bbox.width) boundary.xmin)
    boundary.ymin (max (boundary.ymax - rat_bbox.height) boundary.ymin)
    rat_bbox.width rat_bbox.height excl r maxTries 1 maxTries

/-- The origin sampled at try `n` (a derived view of the loop body, used to
state theorems about which try's sample is returned). -/
def rpOrigin (boundary rat_bbox : BBox) (r : ℕ → ℚ × ℚ) (n : ℕ) : ℚ × ℚ :=
  (uniform boundary.xmin (max (boundary.xmax - rat_bbox.width) boundary.xmin) (r n).1,
   uniform boundary.ymin (max (boundary.ymax - rat_bbox.height) boundary.ymin) (r n).2)

/-- The candidate box formed at try `n`. -/
def rpCandidate (boundary rat_bbox : BBox) (r : ℕ → ℚ × ℚ) (n : ℕ) : BBox :=
  candidateBox (rpOrigin boundary rat_bbox r n).1 (rpOrigin boundary rat_bbox r n).2
    rat_bbox.width rat_bbox.height

/-! ## Element placement (`Element.position` setter, `src/bh-hide-rats.py:209`)

```
@position.setter
def position(self, newpos):
    offset = Point(newpos) - self.position
    local_offset = composed_transform(self.parent).inverse() * offset
    self.transform = Transform.offset(local_offset) * self.transform
```

`self.position` is `self.bbox.ul`, computed by the external
`simpletransform.computeBBox`; the model takes the element's current
page-frame position as the argument `curpos`.  The element's parent lineage
is carried as the list of local transforms of its ancestors (parent first). -/

/-- An element as used by the placement code: the local transforms of its
ancestors, its own `transform` attribute, and its remaining attributes. -/
structure Elem where
  parentChain : List Transform
  transform : Transform
  attrs : List (String × String)
deriving DecidableEq, Repr

/-- `composed_transform(self.parent)`. -/
def Elem.parentTransform (e : Elem) : Transform :=
  composed_transform e.parentChain

/-- The `Element.position` setter. -/
def Elem.setPosition (e : Elem) (curpos newpos : ℚ × ℚ) : Elem :=
  let off : ℚ × ℚ := (newpos.1 - curpos.1, newpos.2 - curpos.2)
  let localOff := (e.parentTransform.inverse).applyOffset off
  { e with transform := Transform.compose (Transform.offset localOff) e.transform }

/-! ## RatGuide (persistent guide layer, `src/bh-hide-rats.py:225`)

The guide layer's children are modelled as a flat list of rectangles; each
carries the optional `bh:rat-guide-mode` attribute, the optional
`xlink:href` back-link, and its bounding box. -/

/-- The recognized `bh:rat-guide-mode` attribute values.  `guideNote` stands
for the value `"notation"` used by the `src/barnhunt` flavour. -/
inductive GMode where
  | boundary
  | exclusion
  | layer
  | guideNote
deriving DecidableEq, Repr

/-- A rectangle element inside the guide layer. -/
structure GuideRect where
  mode : Option GMode
  href : Option String
  bbox : BBox
deriving DecidableEq, Repr

/-- One step of the back-link removal loop in `RatGuide.add_exclusion`
(`del el.attrib[XLINK_HREF]` for every element whose `xlink:href` equals
the new link). -/
def stripHref (href : String) (r : GuideRect) : GuideRect :=
  if r.href = some href then { r with href := none } else r

/-- `RatGuide.add_exclusion(bbox, src_id)` (`src/bh-hide-rats.py:296`):
append an exclusion rectangle; when a source id is given, first remove the
back-link from every element already linked to it, and link the new
rectangle. -/
def add_exclusion (rects : List GuideRect) (bbox : BBox) (srcId : Option String) :
    List GuideRect :=
  match srcId with
  | none => rects ++ [⟨some GMode.exclusion, none, bbox⟩]
  | some sid =>
    let href := "#" ++ sid
    (rects.map (stripHref href)) ++ [⟨some GMode.exclusion, some href, bbox⟩]

/-- Number of guide-layer rectangles back-linked to `href`. -/
def countHref (rects : List GuideRect) (href : String) : ℕ :=
  (rects.filter (fun r => r.href = some href)).length

/-- The deletion loop of `RatGuide.reset` (`src/bh-hide-rats.py:288`):
remove every descendant carrying a `bh:rat-guide-mode` attribute, keeping
untagged user-added children. -/
def deleteTagged (rects : List GuideRect) : List GuideRect :=
  rects.filter (fun r => r.mode = none)

/-- `RatGuide._populate_guide_layer` (`src/bh-hide-rats.py:258`): insert the
boundary rectangle at position 0, then `add_exclusion` each bounding box
discovered by `find_exclusions`.  `bounds` and `exclBoxes` are the current
permanent boundary and discovered exclusion boxes of the document. -/
def populate_guide_layer (bounds : BBox) (exclBoxes : List BBox)
    (rects : List GuideRect) : List GuideRect :=
  exclBoxes.foldl (fun s b => add_exclusion s b none)
    (⟨some GMode.boundary, none, bounds⟩ :: rects)

/-- `RatGuide.reset` (`src/bh-hide-rats.py:288`): delete every tagged
descendant, then repopulate. -/
def reset (bounds : BBox) (exclBoxes : List BBox) (rects : List GuideRect) :
    List GuideRect :=
  populate_guide_layer bounds exclBoxes (deleteTagged rects)

/-! ## Exclusion discovery through `use` references

`_iter_exclusions` (`src/barnhunt/bh-hide-rats.py:282`) / `find_exclusions`
(`src/bh-hide-rats.py:345`) walk descendant-or-self under a scope, yielding
the (transform, bounding-box) contribution of every element flagged
`bh:rat-placement='exclude'` and recursing through every `svg:use` into its
resolved target, composing the accumulated transform.  Neither version keeps
a set of visited identifiers.  The Python call stack is modelled by an
explicit `fuel` bound: a result of `none` means the traversal at that scope
needs a deeper stack than `fuel`, so `(∀ fuel, ... = none)` says the
recursion never returns. -/

/-- A document element as seen by exclusion discovery: an element flagged as
an exclusion, a `use` reference (with resolved target id, `none` for a
malformed href), or a container; each carries its local transform. -/
inductive SElem where
  | excl (localTfm : Transform) (bbox : BBox)
  | use (localTfm : Transform) (href : Option String)
  | group (localTfm : Transform) (children : List SElem)
deriving Repr

mutual

/-- The traversal of `_iter_exclusions`, with `resolve` looking elements up
by id (`svg.getElementById` / `//*[@id=...]`).  An unresolvable or malformed
href warns and contributes nothing (`some []`). -/
def iterExclusions (resolve : String → Option SElem) :
    ℕ → Transform → SElem → Option (List (Transform × BBox))
  | 0, _, _ => none
  | fuel + 1, tfm, e =>
    match e with
    | .excl lt b => some [(Transform.compose tfm lt, b)]
    | .use _ none => some []
    | .use lt (some id) =>
      match resolve id with
      | none => some []
      | some target => iterExclusions resolve fuel (Transform.compose tfm lt) target
    | .group lt cs => iterExclusionsList resolve fuel (Transform.compose tfm lt) cs

/-- Traversal of a child list (same stack bound). -/
def iterExclusionsList (resolve : String → Option SElem) :
    ℕ → Transform → List SElem → Option (List (Transform × BBox))
  | _, _, [] => some []
  | 0, _, _ :: _ => none
  | fuel + 1, tfm, c :: cs => do
    let xs ← iterExclusions resolve fuel tfm c
    let ys ← iterExclusionsList resolve fuel tfm cs
    pure (xs ++ ys)

end

/-- A one-element id table containing a self-referential `use`:
`<use id="a" xlink:href="#a"/>`. -/
def cycResolve : String → Option SElem :=
  fun id => if id = "a" then some (SElem.use Transform.ident (some "a")) else none

/-- The self-referential `use` element itself. -/
def cycElem : SElem := SElem.use Transform.ident (some "a")

/-! ## Blind-clone layer naming (`_dwim_rat_layer_name`,
`src/barnhunt/bh-hide-rats.py:253`)

```
labels = blind_parent.xpath(".../@inkscape:label")
pat = re.compile(r'^(\[o.*?\].*?)\s+(\d+)\s*$')
names, indexes = map(set, zip(*(m.groups() for m in map(pat.match, labels)
                                if m is not None)))
name = names.pop() if len(names) == 1 else "Blind"
index = max(map(int, indexes), default=0) + 1
return f"{name} {index}"
```

With lazy group 1, a label matches iff after stripping trailing whitespace
it ends in a nonempty digit run preceded by nonempty whitespace, and the
remaining prefix starts with `[o` and contains a later `]`; group 1 is that
prefix and group 2 the digit run.  When no label matches, the
`names, indexes = ...` unpacking of the empty `zip` raises `ValueError`
(modelled as `none`). -/

/-- The regex class `\s` (ASCII whitespace as matched by `re`). -/
def isSpaceCh (c : Char) : Bool :=
  c = ' ' || c = '\t' || c = '\n' || c = '\r' || c = '\x0b' || c = '\x0c'

/-- `int()` of a digit run. -/
def digitsToNat (ds : List Char) : ℕ :=
  ds.foldl (fun n c => 10 * n + (c.toNat - '0'.toNat)) 0

/-- `pat.match(label)`, returning `(group 1, int(group 2))`. -/
def matchLabel (s : List Char) : Option (List Char × ℕ) :=
  let s1 := (s.reverse.dropWhile isSpaceCh).reverse
  let digits := (s1.reverse.takeWhile Char.isDigit).reverse
  if digits.isEmpty then none
  else
    let s2 := (s1.reverse.dropWhile Char.isDigit).reverse
    let ws := s2.reverse.takeWhile isSpaceCh
    if ws.isEmpty then none
    else
      let pre := (s2.reverse.dropWhile isSpaceCh).reverse
      match pre with
      | '[' :: 'o' :: rest =>
        if rest.contains ']' then some (pre, digitsToNat digits) else none
      | _ => none

/-- `_dwim_rat_layer_name(labels)`; `none` models the uncaught `ValueError`
raised when no label matches the pattern. -/
def dwim_rat_layer_name (labels : List String) : Option String :=
  let ms := labels.filterMap (fun l => matchLabel l.data)
  match ms with
  | [] => none
  | _ :: _ =>
    let names := (ms.map Prod.fst).dedup
    let name :=
      match names with
      | [n] => n
      | _ => "Blind".data
    let index := (ms.map Prod.snd).foldl max 0 + 1
    some (String.mk (name ++ (' ' :: Nat.toDigits 10 index)))

/-! ## Selection validation and the top-level effect
(`find_rat_layer`, `HideRats.effect`, `src/barnhunt/bh-hide-rats.py:342`) -/

/-- The `.*tube` half of the marker pattern: some newline-free prefix
followed by `tube` (`.` does not match a newline). -/
def dotStarTube : List Char → Bool
  | [] => false
  | c :: cs => ((c :: cs).take 4 == "tube".data) || (c != '\n' && dotStarTube cs)

/-- `re.match(r"#(rat|.*tube)", href)` succeeds. -/
def ratHrefMatch : List Char → Bool
  | '#' :: rest => (rest.take 3 == "rat".data) || dotStarTube rest
  | _ => false

/-- A selected element as consumed by `find_rat_layer`: its tag, its
`xlink:href` attribute (`""` when absent, as `elem.get("xlink:href", "")`),
and the id of its containing layer (`none` when not on a layer). -/
structure SelElem where
  tag : String
  href : String
  layer : Option ℕ
deriving DecidableEq, Repr

/-- `looks_like_rat(elem)`. -/
def looks_like_rat (e : SelElem) : Bool :=
  (e.tag == "use") && ratHrefMatch e.href.data

/-- `find_rat_layer(rats)` (`src/barnhunt/bh-hide-rats.py:342`): each
`raise BadRats(...)` is an `Except.error` carrying the message. -/
def find_rat_layer (rats : List SelElem) : Except String ℕ :=
  if rats.all looks_like_rat = false then
    .error ("Fishy looking rats")
  else
    let ratLayers := (rats.map SelElem.layer).dedup
    if ratLayers.length = 0 then
      .error ("No rats selected")
    else if ratLayers.length ≠ 1 then
      .error ("Rats are not all on the same layer")
    else
      match ratLayers with
      | [some l] => .ok l
      | _ => .error ("Rats are not on a layer")

/-- The document state touched by `HideRats._effect`: the selection, the
guide layer's rectangles, the permanent exclusion boxes and boundary found
in the document, the selected rats' bounding boxes, the `--restart` option
and the random stream. -/
structure HideRatsDoc where
  selection : List SelElem
  guideRects : List GuideRect
  docExclBoxes : List BBox
  boundary : BBox
  ratBoxes : List BBox
  restart : Bool
  randomSrc : ℕ → ℚ × ℚ

/-- `RatGuide.__init__` (`src/barnhunt/bh-hide-rats.py:90`), effect on the
guide layer's rectangles: delete the old `notation` rectangles, then append
one `notation` rectangle per discovered permanent exclusion. -/
def ratGuideInitRects (exclBoxes : List BBox) (rects : List GuideRect) :
    List GuideRect :=
  (rects.filter (fun r => r.mode ≠ some GMode.guideNote)) ++
    exclBoxes.map (fun b => ⟨some GMode.guideNote, none, b⟩)

/-- `RatGuide.__init__`, the `self.exclusions` list after construction: the
discovered permanent exclusions plus the boxes of `exclusion`-tagged and
untagged top-level guide-layer elements. -/
def ratGuideInitExclusions (exclBoxes : List BBox) (rects : List GuideRect) :
    List BBox :=
  exclBoxes ++
    ((ratGuideInitRects exclBoxes rects).filter
      (fun r => r.mode = some GMode.exclusion ∨ r.mode = none)).map GuideRect.bbox

/-- `RatGuide.reset` of the `src/barnhunt` flavour
(`src/barnhunt/bh-hide-rats.py:124`): `self._delete_rects("exclusion")`. -/
def ratGuideResetBh (rects : List GuideRect) : List GuideRect :=
  rects.filter (fun r => r.mode ≠ some GMode.exclusion)

/-- The placement loop of `HideRats._effect`: for each rat, place it and
record its new bounding box as a fresh exclusion (rectangle plus exclusion
list), so later rats avoid earlier ones.  A placed rat's new bounding box is
the candidate box at the returned origin. -/
def placeLoop (boundary : BBox) (r : ℕ → ℚ × ℚ) :
    List BBox → List BBox → List GuideRect → List BBox × List GuideRect
  | [], _, rects => ([], rects)
  | b :: bs, excl, rects =>
    let pos := (random_position boundary b excl r 128).1
    let nb := candidateBox pos.1 pos.2 b.width b.height
    let res := placeLoop boundary r bs (excl ++ [nb])
      (rects ++ [⟨some GMode.exclusion, none, nb⟩])
    (nb :: res.1, res.2)

/-- The body of `HideRats._effect` after `find_rat_layer` has succeeded. -/
def hideRatsBody (doc : HideRatsDoc) : HideRatsDoc :=
  let rects0 := ratGuideInitRects doc.docExclBoxes doc.guideRects
  let excl0 := ratGuideInitExclusions doc.docExclBoxes doc.guideRects
  let rects1 := if doc.restart then ratGuideResetBh rects0 else rects0
  let res := placeLoop doc.boundary doc.randomSrc doc.ratBoxes excl0 rects1
  { doc with guideRects := res.2, ratBoxes := res.1 }

/-- `HideRats.effect` (`src/barnhunt/bh-hide-rats.py:382`): run `_effect`,
catching `BadRats` and reporting it via `inkex.errormsg` (the returned list
of warnings), leaving the document untouched. -/
def hideRatsEffect (doc : HideRatsDoc) : HideRatsDoc × List String :=
  match find_rat_layer doc.selection with
  | .error msg => (doc, [msg])
  | .ok _ => (hideRatsBody doc, [])

/-! ## RatGuide constructor assertion
(`src/barnhunt/bh-hide-rats.py:109`: `assert
self.guide_layer.composed_transform() == identity`) -/

/-- The guide layer's composed transform: its own local transform followed
by its ancestors' (parent first).  A freshly created guide layer has local
transform `ident`. -/
def ratGuideLayerComposed (guideLocal : Transform) (ancestors : List Transform) :
    Transform :=
  composed_transform (guideLocal :: ancestors)

/-- The assertion tested by `RatGuide.__init__`. -/
def ratGuideInitAssert (guideLocal : Transform) (ancestors : List Transform) : Bool :=
  decide (ratGuideLayerComposed guideLocal ancestors = Transform.ident)

/-- The message of a failed `find_rat_layer` (`""` when it succeeded). -/
def exceptMsg : Except String ℕ → String
  | .error m => m
  | .ok _ => ""

/-- Concrete random stream used by witnesses. -/
def rHalf : ℕ → ℚ × ℚ := fun _ => (1/2, 1/2)

/-- Concrete element used by the placement witness: its parent carries a
rotation-plus-translation, its own transform a translation. -/
def elemW : Elem :=
  ⟨[⟨0, -1, 3, 1, 0, 5⟩], ⟨1, 0, 7, 0, 1, 9⟩, [("id", "rat1")]⟩

/-- Concrete document with an empty selection, used by the abort witness. -/
def docEmptySel : HideRatsDoc :=
  ⟨[], [], [], ⟨0, 10, 0, 10⟩, [], false, fun _ => (0, 0)⟩

/-! ## Helper lemmas -/

theorem uniform_mem (a b r : ℚ) (hab : a ≤ b) (h0 : 0 ≤ r) (h1 : r ≤ 1) :
    a ≤ uniform a b r ∧ uniform a b r ≤ b := by
  unfold uniform
  constructor
  · nlinarith
  · nlinarith

theorem randomPositionAux_mem (x0 x1 y0 y1 w h : ℚ) (excl : List BBox)
    (r : ℕ → ℚ × ℚ) (maxTries : ℕ) (hx : x0 ≤ x1) (hy : y0 ≤ y1)
    (hr : ∀ n, 0 ≤ (r n).1 ∧ (r n).1 ≤ 1 ∧ 0 ≤ (r n).2 ∧ (r n).2 ≤ 1) :
    ∀ fuel n,
      x0 ≤ (randomPositionAux x0 x1 y0 y1 w h excl r maxTries n fuel).1.1 ∧
      (randomPositionAux x0 x1 y0 y1 w h excl r maxTries n fuel).1.1 ≤ x1 ∧
      y0 ≤ (randomPositionAux x0 x1 y0 y1 w h excl r maxTries n fuel).1.2 ∧
      (randomPositionAux x0 x1 y0 y1 w h excl r maxTries n fuel).1.2 ≤ y1 := by
  intro fuel
  induction fuel with
  | zero =>
    intro n
    obtain ⟨hx0, hx1⟩ := uniform_mem x0 x1 (r n).1 hx (hr n).1 (hr n).2.1
    obtain ⟨hy0, hy1⟩ := uniform_mem y0 y1 (r n).2 hy (hr n).2.2.1 (hr n).2.2.2
    exact ⟨hx0, hx1, hy0, hy1⟩
  | succ fuel ih =>
    intro n
    obtain ⟨hx0, hx1⟩ := uniform_mem x0 x1 (r n).1 hx (hr n).1 (hr n).2.1
    obtain ⟨hy0, hy1⟩ := uniform_mem y0 y1 (r n).2 hy (hr n).2.2.1 (hr n).2.2.2
    simp only [randomPositionAux]
    split
    · exact ⟨hx0, hx1, hy0, hy1⟩
    · split
      · exact ⟨hx0, hx1, hy0, hy1⟩
      · exact ih (n + 1)

theorem randomPositionAux_exhaust (x0 x1 y0 y1 w h : ℚ) (excl : List BBox)
    (r : ℕ → ℚ × ℚ) (maxTries : ℕ) :
    ∀ fuel n, n + fuel = maxTries + 1 → 1 ≤ n → n ≤ maxTries →
      (∀ m, n ≤ m → m ≤ maxTries →
        intersects_excluded excl
          (candidateBox (uniform x0 x1 (r m).1) (uniform y0 y1 (r m).2) w h) = true) →
      randomPositionAux x0 x1 y0 y1 w h excl r maxTries n fuel
        = ((uniform x0 x1 (r maxTries).1, uniform y0 y1 (r maxTries).2), [maxTries]) := by
  intro fuel
  induction fuel with
  | zero => intro n hinv _ hle _; omega
  | succ fuel ih =>
    intro n hinv h1 hle hall
    have hn := hall n le_rfl hle
    simp only [randomPositionAux]
    rw [if_neg (by simp [hn])]
    by_cases hend : maxTries ≤ n
    · have : n = maxTries := le_antisymm hle hend
      subst this
      rw [if_pos le_rfl]
    · rw [if_neg hend]
      exact ih (n + 1) (by omega) (by omega) (by omega)
        (fun m hm1 hm2 => hall m (by omega) hm2)

theorem randomPositionAux_success (x0 x1 y0 y1 w h : ℚ) (excl : List BBox)
    (r : ℕ → ℚ × ℚ) (maxTries n₀ : ℕ) (hn₀ : n₀ ≤ maxTries)
    (hfree : intersects_excluded excl
      (candidateBox (uniform x0 x1 (r n₀).1) (uniform y0 y1 (r n₀).2) w h) = false) :
    ∀ fuel n, n + fuel = maxTries + 1 → 1 ≤ n → n ≤ n₀ →
      (∀ m, n ≤ m → m < n₀ →
        intersects_excluded excl
          (candidateBox (uniform x0 x1 (r m).1) (uniform y0 y1 (r m).2) w h) = true) →
      randomPositionAux x0 x1 y0 y1 w h excl r maxTries n fuel
        = ((uniform x0 x1 (r n₀).1, uniform y0 y1 (r n₀).2), []) := by
  intro fuel
  induction fuel with
  | zero => intro n hinv _ hle _; omega
  | succ fuel ih =>
    intro n hinv h1 hle hall
    simp only [randomPositionAux]
    by_cases heq : n = n₀
    · subst heq
      rw [if_pos hfree]
    · have hlt : n < n₀ := lt_of_le_of_ne hle heq
      have hn := hall n le_rfl hlt
      rw [if_neg (by simp [hn])]
      rw [if_neg (by omega)]
      exact ih (n + 1) (by omega) (by omega) (by omega)
        (fun m hm1 hm2 => hall m (by omega) hm2)

/-! ## Claims -/

/-- C1: for every boundary box and marker box, `random_position` samples
each candidate `x` uniformly in the closed interval
`[boundary.left, max(boundary.right - box.width, boundary.left)]` and `y`
analogously; even when the marker box is wider or taller than the boundary,
the sampling interval is never of negative width and every returned origin
lies within these clamped intervals. -/
theorem random_position_clamped (boundary rat_bbox : BBox) (excl : List BBox)
    (r : ℕ → ℚ × ℚ) (maxTries : ℕ)
    (hr : ∀ n, 0 ≤ (r n).1 ∧ (r n).1 ≤ 1 ∧ 0 ≤ (r n).2 ∧ (r n).2 ≤ 1) :
    boundary.xmin ≤ max (boundary.xmax - rat_bbox.width) boundary.xmin ∧
    boundary.ymin ≤ max (boundary.ymax - rat_bbox.height) boundary.ymin ∧
    boundary.xmin ≤ (random_position boundary rat_bbox excl r maxTries).1.1 ∧
    (random_position boundary rat_bbox excl r maxTries).1.1
      ≤ max (boundary.xmax - rat_bbox.width) boundary.xmin ∧
    boundary.ymin ≤ (random_position boundary rat_bbox excl r maxTries).1.2 ∧
    (random_position boundary rat_bbox excl r maxTries).1.2
      ≤ max (boundary.ymax - rat_bbox.height) boundary.ymin := by
  have hx : boundary.xmin ≤ max (boundary.xmax - rat_bbox.width) boundary.xmin :=
    le_max_right _ _
  have hy : boundary.ymin ≤ max (boundary.ymax - rat_bbox.height) boundary.ymin :=
    le_max_right _ _
  obtain ⟨h1, h2, h3, h4⟩ :=
    randomPositionAux_mem boundary.xmin (max (boundary.xmax - rat_bbox.width) boundary.xmin)
      boundary.ymin (max (boundary.ymax - rat_bbox.height) boundary.ymin)
      rat_bbox.width rat_bbox.height excl r maxTries hx hy hr maxTries 1
  exact ⟨hx, hy, h1, h2, h3, h4⟩

/-- C1 witness: a 3×25 marker (taller than the 10×10 boundary) still gets an
origin inside the clamped intervals. -/
theorem random_position_clamped_witness :
    (0 : ℚ) ≤ (random_position ⟨0, 10, 0, 10⟩ ⟨0, 3, 0, 25⟩ [] rHalf 128).1.2 ∧
    (random_position ⟨0, 10, 0, 10⟩ ⟨0, 3, 0, 25⟩ [] rHalf 128).1.2
      ≤ max ((10 : ℚ) - 25) 0 := by
  obtain ⟨_, _, _, _, h5, h6⟩ :=
    random_position_clamped ⟨0, 10, 0, 10⟩ ⟨0, 3, 0, 25⟩ [] rHalf 128
      (fun n => by norm_num [rHalf])
  exact ⟨h5, by simpa [BBox.height] using h6⟩

/-- C2: with a budget of 128 tries, if every sampled candidate overlaps an
exclusion, `random_position` emits exactly one warning naming the try count
(128) and returns the last (128th) sampled origin; if some candidate is
free, the first free candidate's origin is returned and no warning is
emitted. -/
theorem random_position_retry_warning (boundary rat_bbox : BBox)
    (excl : List BBox) (r : ℕ → ℚ × ℚ) :
    ((∀ m, 1 ≤ m → m ≤ 128 →
        intersects_excluded excl (rpCandidate boundary rat_bbox r m) = true) →
      random_position boundary rat_bbox excl r 128
        = (rpOrigin boundary rat_bbox r 128, [128]))
    ∧ (∀ n₀, 1 ≤ n₀ → n₀ ≤ 128 →
        intersects_excluded excl (rpCandidate boundary rat_bbox r n₀) = false →
        (∀ m, 1 ≤ m → m < n₀ →
          intersects_excluded excl (rpCandidate boundary rat_bbox r m) = true) →
        random_position boundary rat_bbox excl r 128
          = (rpOrigin boundary rat_bbox r n₀, [])) := by
  constructor
  · intro hall
    exact randomPositionAux_exhaust _ _ _ _ _ _ excl r 128 128 1 (by omega) le_rfl
      (by omega) (fun m hm1 hm2 => hall m hm1 hm2)
  · intro n₀ h1 h2 hfree hbefore
    exact randomPositionAux_success _ _ _ _ _ _ excl r 128 n₀ h2 hfree 128 1
      (by omega) le_rfl h1 (fun m hm1 hm2 => hbefore m hm1 hm2)

/-- C2 witness: a boundary completely filled by an exclusion exhausts all
128 tries and warns once naming 128; with no exclusions the first try is
accepted silently. -/
theorem random_position_retry_warning_witness :
    random_position ⟨0, 10, 0, 10⟩ ⟨0, 10, 0, 10⟩ [⟨0, 10, 0, 10⟩] rHalf 128
      = (rpOrigin ⟨0, 10, 0, 10⟩ ⟨0, 10, 0, 10⟩ rHalf 128, [128]) ∧
    random_position ⟨0, 10, 0, 10⟩ ⟨0, 2, 0, 2⟩ [] rHalf 128
      = (rpOrigin ⟨0, 10, 0, 10⟩ ⟨0, 2, 0, 2⟩ rHalf 1, []) :=
  ⟨(random_position_retry_warning ⟨0, 10, 0, 10⟩ ⟨0, 10, 0, 10⟩ [⟨0, 10, 0, 10⟩] rHalf).1
      (fun m _ _ => by
        have hc : rpCandidate ⟨0, 10, 0, 10⟩ ⟨0, 10, 0, 10⟩ rHalf m = ⟨0, 10, 0, 10⟩ := by
          norm_num [rpCandidate, rpOrigin, rHalf, uniform, candidateBox,
            BBox.width, BBox.height]
        rw [hc]
        decide),
   (random_position_retry_warning ⟨0, 10, 0, 10⟩ ⟨0, 2, 0, 2⟩ [] rHalf).2 1
      le_rfl (by omega) (by decide) (fun m hm1 hm2 => by omega)⟩

/-- Composing with a translation whose offset is the inverse parent
transform applied to `v` translates the parent-frame image by exactly
`v`. -/
theorem offset_update_translates (P L : Transform) (v g : ℚ × ℚ)
    (hdet : P.det ≠ 0) :
    (Transform.compose P
        (Transform.compose (Transform.offset (P.inverse.applyOffset v)) L)).applyPt g
      = (((Transform.compose P L).applyPt g).1 + v.1,
         ((Transform.compose P L).applyPt g).2 + v.2) := by
  obtain ⟨a11, a12, a13, a21, a22, a23⟩ := P
  obtain ⟨b11, b12, b13, b21, b22, b23⟩ := L
  obtain ⟨v1, v2⟩ := v
  obtain ⟨g1, g2⟩ := g
  simp only [Transform.det] at hdet
  simp only [Transform.compose, Transform.offset, Transform.inverse,
    Transform.applyOffset, Transform.applyPt, Transform.det, Prod.mk.injEq]
  constructor
  · field_simp
    ring
  · field_simp
    ring

/-- C3: the `Element.position` setter converts the new page-frame position
to a local offset by applying the inverse of the composed parent transform
to the position delta, prepends `translate(offset)` to the element's
existing transform (`new_local = translate(offset) ∘ old_local`), modifies
no other attribute, and thereby shifts the element's page-frame image by
exactly the position delta. -/
theorem position_setter_update (e : Elem) (curpos newpos g : ℚ × ℚ)
    (hdet : e.parentTransform.det ≠ 0) :
    (e.setPosition curpos newpos).transform
      = Transform.compose
          (Transform.offset ((e.parentTransform.inverse).applyOffset
            (newpos.1 - curpos.1, newpos.2 - curpos.2)))
          e.transform
    ∧ (e.setPosition curpos newpos).attrs = e.attrs
    ∧ (e.setPosition curpos newpos).parentChain = e.parentChain
    ∧ (Transform.compose e.parentTransform (e.setPosition curpos newpos).transform).applyPt g
      = (((Transform.compose e.parentTransform e.transform).applyPt g).1
           + (newpos.1 - curpos.1),
         ((Transform.compose e.parentTransform e.transform).applyPt g).2
           + (newpos.2 - curpos.2)) :=
  ⟨rfl, rfl, rfl,
   offset_update_translates e.parentTransform e.transform
     (newpos.1 - curpos.1, newpos.2 - curpos.2) g hdet⟩

/-- C3 witness: a parent carrying rotation-plus-translation; moving the
element from page position (1, 2) to (4, 6) shifts its page-frame image by
exactly (3, 4). -/
theorem position_setter_update_witness :
    elemW.parentTransform.det ≠ 0 ∧
    (Transform.compose elemW.parentTransform
        (elemW.setPosition (1, 2) (4, 6)).transform).applyPt (0, 0)
      = (((Transform.compose elemW.parentTransform elemW.transform).applyPt (0, 0)).1
           + ((4 : ℚ) - 1),
         ((Transform.compose elemW.parentTransform elemW.transform).applyPt (0, 0)).2
           + ((6 : ℚ) - 2)) :=
  ⟨by norm_num [elemW, Elem.parentTransform, composed_transform,
      Transform.compose, Transform.det, Transform.ident],
   (position_setter_update elemW (1, 2) (4, 6) (0, 0)
      (by norm_num [elemW, Elem.parentTransform, composed_transform,
        Transform.compose, Transform.det, Transform.ident])).2.2.2⟩

/-- C8: the overlap test used to reject candidate placements returns true
iff the closed rectangles intersect; touching edges or corners count as
overlapping and degenerate boxes participate normally (only `min ≤ max` on
each axis is assumed). -/
theorem overlaps_iff_closed_intersection (a b : BBox)
    (hax : a.xmin ≤ a.xmax) (hay : a.ymin ≤ a.ymax)
    (hbx : b.xmin ≤ b.xmax) (hby : b.ymin ≤ b.ymax) :
    a.overlaps b = true ↔
      ∃ p : ℚ × ℚ,
        (a.xmin ≤ p.1 ∧ p.1 ≤ a.xmax ∧ a.ymin ≤ p.2 ∧ p.2 ≤ a.ymax) ∧
        (b.xmin ≤ p.1 ∧ p.1 ≤ b.xmax ∧ b.ymin ≤ p.2 ∧ p.2 ≤ b.ymax) := by
  simp only [BBox.overlaps, Bool.and_eq_true, decide_eq_true_eq]
  constructor
  · rintro ⟨⟨⟨h1, h2⟩, h3⟩, h4⟩
    refine ⟨(max a.xmin b.xmin, max a.ymin b.ymin), ⟨?_, ?_, ?_, ?_⟩, ?_, ?_, ?_, ?_⟩
    · exact le_max_left _ _
    · exact max_le hax h3
    · exact le_max_left _ _
    · exact max_le hay h4
    · exact le_max_right _ _
    · exact max_le h1 hbx
    · exact le_max_right _ _
    · exact max_le h2 hby
  · rintro ⟨p, ⟨ha1, ha2, ha3, ha4⟩, hb1, hb2, hb3, hb4⟩
    exact ⟨⟨⟨le_trans ha1 hb2, le_trans ha3 hb4⟩, le_trans hb1 ha2⟩, le_trans hb3 ha4⟩

/-- C8 witness: two unit squares sharing only the edge x = 1 do count as
overlapping (the shared edge point (1, 0) lies in both closed boxes). -/
theorem overlaps_iff_closed_intersection_witness :
    BBox.overlaps ⟨0, 1, 0, 1⟩ ⟨1, 2, 0, 1⟩ = true :=
  (overlaps_iff_closed_intersection ⟨0, 1, 0, 1⟩ ⟨1, 2, 0, 1⟩
      (by norm_num) (by norm_num) (by norm_num) (by norm_num)).mpr
    ⟨(1, 0), by norm_num⟩

/-- C4: on the self-referential document `<use id="a" xlink:href="#a"/>`,
exclusion discovery never returns, whatever stack depth is available — the
traversal has no visited-identifier check, so the claim that a cyclic
reference chain is reported as an error rather than recursing forever does
not hold of the code. -/
theorem iter_exclusions_cycle_diverges :
    ∀ (fuel : ℕ) (tfm : Transform),
      iterExclusions cycResolve fuel tfm cycElem = none := by
  intro fuel
  induction fuel with
  | zero => intro tfm; rfl
  | succ fuel ih =>
    intro tfm
    show iterExclusions cycResolve (fuel + 1) tfm cycElem = none
    simp only [iterExclusions, cycElem, cycResolve, if_pos]
    exact ih _

/-- C6: `_dwim_rat_layer_name` on siblings `"[o] Blind 1"`, `"[o] Blind 2"`
produces `"[o] Blind 3"`; but with no matching sibling label (`"Background"`
alone, or no siblings) it raises `ValueError` (modelled `none`) instead of
falling back to `"Blind 1"` as claimed. -/
theorem dwim_rat_layer_name_eval :
    dwim_rat_layer_name ["[o] Blind 1", "[o] Blind 2"] = some ("[o] Blind 3")
    ∧ dwim_rat_layer_name ["Background"] = none
    ∧ dwim_rat_layer_name [] = none := by
  refine ⟨?_, ?_, ?_⟩ <;> decide

theorem countHref_map_stripHref (rects : List GuideRect) (h : String) :
    countHref (rects.map (stripHref h)) h = 0 := by
  induction rects with
  | nil => rfl
  | cons r rs ih =>
    simp only [List.map_cons, countHref, List.filter_cons] at ih ⊢
    by_cases hr : r.href = some h
    · simp [stripHref, hr, ih]
    · simp only [stripHref, if_neg hr]
      simp [hr, ih]

theorem countHref_add_exclusion (rects : List GuideRect) (bbox : BBox)
    (sid : String) :
    countHref (add_exclusion rects bbox (some sid)) ("#" ++ sid) = 1 := by
  have hstrip := countHref_map_stripHref rects ("#" ++ sid)
  simp only [add_exclusion, countHref, List.filter_append, List.length_append] at hstrip ⊢
  rw [hstrip]
  simp

/-- C5: placing a marker any (positive) number of times, each placement
recording its box via `add_exclusion` with the marker's source id, leaves
exactly one guide-layer rectangle back-linked to that id; the back-link is
first removed from every previously linked rectangle. -/
theorem add_exclusion_unique_backlink (rects : List GuideRect) (sid : String)
    (boxes : List BBox) (hne : boxes ≠ []) :
    countHref
        (boxes.foldl (fun s b => add_exclusion s b (some sid)) rects)
        ("#" ++ sid) = 1
    ∧ countHref (rects.map (stripHref ("#" ++ sid))) ("#" ++ sid) = 0 := by
  refine ⟨?_, countHref_map_stripHref rects ("#" ++ sid)⟩
  induction boxes generalizing rects with
  | nil => exact absurd rfl hne
  | cons b bs ih =>
    cases bs with
    | nil => simpa using countHref_add_exclusion rects b sid
    | cons b' bs' =>
      simpa using ih (add_exclusion rects b (some sid)) (by simp)

/-- C5 witness: two successive placements of marker `rat1` leave exactly one
rectangle back-linked to `#rat1`. -/
theorem add_exclusion_unique_backlink_witness :
    countHref
        ([(⟨0, 1, 0, 1⟩ : BBox), ⟨2, 3, 2, 3⟩].foldl
          (fun s b => add_exclusion s b (some "rat1")) [])
        ("#" ++ "rat1") = 1 :=
  (add_exclusion_unique_backlink [] "rat1" [⟨0, 1, 0, 1⟩, ⟨2, 3, 2, 3⟩]
    (by simp)).1

theorem foldl_add_exclusion_none (boxes : List BBox) :
    ∀ s : List GuideRect,
      boxes.foldl (fun s b => add_exclusion s b none) s
        = s ++ boxes.map (fun b => (⟨some GMode.exclusion, none, b⟩ : GuideRect)) := by
  induction boxes with
  | nil => intro s; simp
  | cons b bs ih =>
    intro s
    simp only [List.foldl_cons, List.map_cons]
    rw [ih]
    simp [add_exclusion]

theorem deleteTagged_deleteTagged (rects : List GuideRect) :
    deleteTagged (deleteTagged rects) = deleteTagged rects := by
  simp [deleteTagged, List.filter_filter]

/-- C7: guide-layer reset deletes every role-tagged descendant but no
untagged user-added child, then repopulates from the current permanent
boundary and exclusions; hence with the document unchanged, a second reset
reproduces exactly the state left by the first, and the untagged children
always survive. -/
theorem reset_idempotent (bounds : BBox) (exclBoxes : List BBox)
    (rects : List GuideRect) :
    reset bounds exclBoxes (reset bounds exclBoxes rects)
      = reset bounds exclBoxes rects
    ∧ deleteTagged (reset bounds exclBoxes rects) = deleteTagged rects := by
  have hexp : ∀ s : List GuideRect,
      reset bounds exclBoxes s
        = (⟨some GMode.boundary, none, bounds⟩ : GuideRect) :: deleteTagged s
            ++ exclBoxes.map (fun b => ⟨some GMode.exclusion, none, b⟩) := by
    intro s
    simp [reset, populate_guide_layer, foldl_add_exclusion_none]
  have hmap : deleteTagged
      (exclBoxes.map (fun b => (⟨some GMode.exclusion, none, b⟩ : GuideRect))) = [] := by
    induction exclBoxes with
    | nil => rfl
    | cons b bs ih => simp [deleteTagged]
  have hdel : ∀ s : List GuideRect,
      deleteTagged (reset bounds exclBoxes s) = deleteTagged s := by
    intro s
    rw [hexp s]
    have h1 : deleteTagged
        ((⟨some GMode.boundary, none, bounds⟩ : GuideRect) :: deleteTagged s
          ++ exclBoxes.map (fun b => ⟨some GMode.exclusion, none, b⟩))
        = deleteTagged (deleteTagged s)
          ++ deleteTagged (exclBoxes.map (fun b => ⟨some GMode.exclusion, none, b⟩)) := by
      simp [deleteTagged, List.filter_append, List.filter_cons]
    rw [h1, deleteTagged_deleteTagged, hmap, List.append_nil]
  constructor
  · rw [hexp (reset bounds exclBoxes rects), hdel rects, hexp rects]
  · exact hdel rects

/-- C9: every selection violating a validity condition — empty selection,
an element not matching the marker pattern, or markers without one common
layer (several layers, or not on a layer at all) — makes `find_rat_layer`
raise the `BadRats` condition, which the top level catches and reports as
the single warning, leaving the document unchanged (no guide layer change,
no exclusion added, no transform modified). -/
theorem hide_rats_bad_input_aborts (doc : HideRatsDoc)
    (h : doc.selection = []
         ∨ doc.selection.all looks_like_rat = false
         ∨ ¬ ∃ l : ℕ, ∀ e ∈ doc.selection, e.layer = some l) :
    (find_rat_layer doc.selection).isOk = false
    ∧ hideRatsEffect doc = (doc, [exceptMsg (find_rat_layer doc.selection)]) := by
  have herr : ∃ msg, find_rat_layer doc.selection = .error msg := by
    by_cases hall : doc.selection.all looks_like_rat = false
    · exact ⟨"Fishy looking rats", by simp [find_rat_layer, hall]⟩
    · rcases h with hsel | hall2 | hno
      · exact ⟨"No rats selected", by simp [find_rat_layer, hsel]⟩
      · exact absurd hall2 hall
      · by_cases hsel : doc.selection = []
        · exact ⟨"No rats selected", by simp [find_rat_layer, hsel]⟩
        · rcases hl : (doc.selection.map SelElem.layer).dedup with _ | ⟨x, xs⟩
          · rw [List.dedup_eq_nil, List.map_eq_nil_iff] at hl
            exact absurd hl hsel
          · rcases xs with _ | ⟨y, ys⟩
            · rcases x with _ | l
              · exact ⟨"Rats are not on a layer", by simp [find_rat_layer, hall, hl]⟩
              · exfalso
                apply hno
                refine ⟨l, fun e he => ?_⟩
                have hmem : e.layer ∈ (doc.selection.map SelElem.layer).dedup :=
                  List.mem_dedup.mpr (List.mem_map_of_mem SelElem.layer he)
                rw [hl] at hmem
                simpa using hmem
            · exact ⟨"Rats are not all on the same layer",
                by simp [find_rat_layer, hall, hl]⟩
  obtain ⟨msg, hmsg⟩ := herr
  rw [hmsg]
  exact ⟨rfl, by simp [hideRatsEffect, hmsg, exceptMsg]⟩

/-- C9 witness: an empty selection aborts with the document unchanged and a
single warning. -/
theorem hide_rats_bad_input_aborts_witness :
    (find_rat_layer docEmptySel.selection).isOk = false
    ∧ hideRatsEffect docEmptySel
        = (docEmptySel, [exceptMsg (find_rat_layer docEmptySel.selection)]) :=
  hide_rats_bad_input_aborts docEmptySel (Or.inl rfl)

theorem compose_ident_left (t : Transform) :
    Transform.compose Transform.ident t = t := by
  obtain ⟨a11, a12, a13, a21, a22, a23⟩ := t
  simp [Transform.compose, Transform.ident]

theorem foldl_compose_ident (l : List Transform)
    (hall : ∀ t ∈ l, t = Transform.ident) :
    ∀ acc, l.foldl (fun t lt => Transform.compose lt t) acc = acc := by
  induction l with
  | nil => intro acc; rfl
  | cons x xs ih =>
    intro acc
    have hx : x = Transform.ident := hall x (by simp)
    simp only [List.foldl_cons, hx, compose_ident_left]
    exact ih (fun t ht => hall t (by simp [ht])) acc

/-- C10 counterexample: a freshly created guide layer under a parent layer
whose transform is `translate(1, 0)` has composed transform
`translate(1, 0) ≠ identity`, so the constructor's assertion fails — the
claim that the assertion never fails on any document is false. -/
theorem ratguide_assert_fails_on_transformed_parent :
    ratGuideInitAssert Transform.ident [Transform.offset (1, 0)] = false := by
  norm_num [ratGuideInitAssert, ratGuideLayerComposed, composed_transform,
    Transform.compose, Transform.offset, Transform.ident, Transform.mk.injEq]

/-- C10 amended: the composed transform of the guide layer equals the
identity — so the constructor's assertion holds — whenever the guide
layer's own local transform and those of all its ancestors are the
identity; for ancestors carrying other transforms the assertion can
fail. -/
theorem ratguide_assert_holds_of_identity_lineage (guideLocal : Transform)
    (ancestors : List Transform) (hg : guideLocal = Transform.ident)
    (ha : ∀ t ∈ ancestors, t = Transform.ident) :
    ratGuideInitAssert guideLocal ancestors = true := by
  subst hg
  have hcomp : ratGuideLayerComposed Transform.ident ancestors = Transform.ident := by
    unfold ratGuideLayerComposed composed_transform
    refine foldl_compose_ident _ ?_ Transform.ident
    intro t ht
    rcases List.mem_cons.mp ht with h1 | h1
    · exact h1
    · exact ha t h1
  simp [ratGuideInitAssert, hcomp]

/-- C10 amended witness: identity transforms throughout make the assertion
hold. -/
theorem ratguide_assert_holds_witness :
    ratGuideInitAssert Transform.ident [Transform.ident] = true :=
  ratguide_assert_holds_of_identity_lineage Transform.ident [Transform.ident] rfl
    (fun t ht => by simpa using ht)

end InkexBh

